import Mathlib

/-
  Verification development for the MotionCam raw-capture pipeline
  (libMotionCam/source/ImageProcessor.cpp and Util.cpp).

  The numeric kernels (Halide-generated code, OpenCV routines, libm
  transcendentals) are opaque collaborators of the code under study; they are
  modelled as explicit function parameters, while every branch, constant and
  arithmetic step of ImageProcessor.cpp itself is translated directly.
  Machine floats are modelled as exact rationals.
-/

namespace MotionCam

/-! ## Wavelet denoiser (ImageProcessor::denoise, spatial part)

Modelled from the spec: the forward_transform / inverse_transform kernels are
generated by DenoiseGenerator.cpp, which is not under src (only the build
script that instantiates it with levels=4, and the call sites in
ImageProcessor.cpp, are).  Per spec section 4.5 and the WaveletPyramid data
model, each level halves resolution and produces a low band plus
horizontal / vertical / diagonal detail bands, and reconstruction applies a
per-level attenuation weight to the detail bands; an all-zero weight leaves
details untouched.  A 2-D Haar analysis / synthesis pair realises exactly
that contract. -/

/-- A channel plane: rational pixel values on integer coordinates. -/
abbrev Plane := ℤ → ℤ → ℚ

/-- One wavelet level: low band plus the three detail bands
(horizontal, vertical, diagonal). -/
structure WaveletBand where
  low : Plane
  dh : Plane
  dv : Plane
  dd : Plane

/-- Modelled from the spec: number of wavelet levels.  The denoise generator
build script (src/unnamed/part_000) instantiates forward_transform with
levels=4, matching the 4-entry weight rows of WEIGHTS and the 4-entry
weights buffer in ImageProcessor::denoise. -/
def WAVELET_LEVELS : ℕ := 4

/-- Modelled from the spec: one forward Haar analysis level
(spec section 4.5: low / horizontal / vertical / diagonal sub-bands at half
resolution). -/
def forwardLevel (p : Plane) : WaveletBand where
  low := fun x y => (p (2*x) (2*y) + p (2*x+1) (2*y) + p (2*x) (2*y+1) + p (2*x+1) (2*y+1)) / 4
  dh := fun x y => (p (2*x) (2*y) - p (2*x+1) (2*y) + p (2*x) (2*y+1) - p (2*x+1) (2*y+1)) / 4
  dv := fun x y => (p (2*x) (2*y) + p (2*x+1) (2*y) - p (2*x) (2*y+1) - p (2*x+1) (2*y+1)) / 4
  dd := fun x y => (p (2*x) (2*y) - p (2*x+1) (2*y) - p (2*x) (2*y+1) + p (2*x+1) (2*y+1)) / 4

/-- Modelled from the spec: detail-band attenuation with weight w and noise
sigma (hard threshold).  With weight 0 the detail coefficient passes through
unchanged, which is the contract the all-zero weight vector relies on. -/
def attenuate (w sigma d : ℚ) : ℚ := if |d| ≤ w * sigma then 0 else d

/-- Modelled from the spec: one inverse Haar synthesis level, applying the
attenuation weight of this level to the three detail bands. -/
def inverseLevel (w sigma : ℚ) (b : WaveletBand) : Plane := fun x y =>
  let l := b.low (x / 2) (y / 2)
  let h := attenuate w sigma (b.dh (x / 2) (y / 2))
  let v := attenuate w sigma (b.dv (x / 2) (y / 2))
  let d := attenuate w sigma (b.dd (x / 2) (y / 2))
  if x % 2 = 0 then
    (if y % 2 = 0 then l + h + v + d else l + h - v - d)
  else
    (if y % 2 = 0 then l - h + v - d else l - h - v + d)

/-- Modelled from the spec: n-level forward wavelet transform.  Returns the
detail bands, finest level first, and the residual low band. -/
def forwardTransform : ℕ → Plane → List (Plane × Plane × Plane) × Plane
  | 0, p => ([], p)
  | n+1, p =>
    let b := forwardLevel p
    let r := forwardTransform n b.low
    ((b.dh, b.dv, b.dd) :: r.1, r.2)

/-- Modelled from the spec: inverse wavelet transform, consuming the per-level
attenuation weights (finest level first, as the detail list). -/
def inverseTransform (sigma : ℚ) : List ℚ → List (Plane × Plane × Plane) → Plane → Plane
  | _, [], low => low
  | ws, d :: rest, low =>
    inverseLevel (ws.headD 0) sigma
      ⟨inverseTransform sigma ws.tail rest low, d.1, d.2.1, d.2.2⟩

/-- The attenuation weight vector installed when spatialDenoiseLevel == 0
(ImageProcessor.cpp line 1905). -/
def zeroDenoiseWeights : List ℚ := [0, 0, 0, 0]

/-- Modelled from the spec: quantization of the reconstructed plane back to
the unsigned fixed-point output range, with the rounding convention used
throughout ImageProcessor.cpp (add 0.5, clamp to the range, truncate). -/
def quantize (range : ℕ) (v : ℚ) : ℤ := ⌊max 0 (min (v + 1/2) range)⌋

/-! ## Fixed weight and signal tables (ImageProcessor.cpp lines 67-74, 531-538) -/

/-- The fixed 6x4 attenuation weight table WEIGHTS (ImageProcessor.cpp
lines 67-74).  Row 0 carries the strongest attenuation, row 5 the weakest. -/
def WEIGHTS : List (List ℚ) :=
  [[12, 4, 2, 1],
   [8, 4, 2, 1],
   [6, 4, 1, 1],
   [4, 2, 1, 0],
   [2, 1, 1/2, 0],
   [1, 1, 0, 0]]

/-- The signal-level lookup table SIGNAL_MAP of
ImageProcessor::estimateDenoiseWeights (values 0.0001, 0.0025, 0.005, 0.01,
0.03, 0.05 as exact rationals). -/
def SIGNAL_MAP : List ℚ := [1/10000, 1/400, 1/200, 1/100, 3/100, 1/20]

/-- The initialiser of minDiff in ImageProcessor::estimateDenoiseWeights
(1e5f). -/
def INITIAL_MIN_DIFF : ℚ := 100000

/-- One iteration of the selection loop of
ImageProcessor::estimateDenoiseWeights: the accumulator holds
(minDiff, w) and is replaced when the current distance is strictly
smaller. -/
def weightStep (signalLevel : ℚ) (acc : ℚ × ℕ) (i : ℕ) : ℚ × ℕ :=
  if |signalLevel - SIGNAL_MAP.getD i 0| < acc.1 then
    (|signalLevel - SIGNAL_MAP.getD i 0|, i)
  else acc

/-- The full selection loop: minDiff starts at 1e5 and w at
WEIGHTS.size()-1 = 5, then i runs over 0..5. -/
def bestWeight (signalLevel : ℚ) : ℚ × ℕ :=
  (List.range WEIGHTS.length).foldl (weightStep signalLevel)
    (INITIAL_MIN_DIFF, WEIGHTS.length - 1)

/-- ImageProcessor::estimateDenoiseWeights: returns the weight row of the
selected index. -/
def estimateDenoiseWeights (signalLevel : ℚ) : List ℚ :=
  WEIGHTS.getD (bestWeight signalLevel).2 []

/-! ## Temporal fusion kernel selection and accumulator normalisation
(ImageProcessor::denoise, container overload, lines 1759-1957) -/

/-- The three Halide fusion kernel variants (fuse_denoise_3x3 / 5x5 / 7x7). -/
inductive FuseKernel
  | fuse3x3
  | fuse5x5
  | fuse7x7
deriving DecidableEq

/-- The normalised average signal level: per-channel signal measurements
averaged, then divided by the white level (lines 1782-1783). -/
def signalAverage (signal : List ℚ) (whiteLevel : ℚ) : ℚ :=
  (signal.sum / signal.length) / whiteLevel

/-- Kernel dispatch of ImageProcessor::denoise (lines 1802-1812):
signalAverage below 0.02 selects the 7x7 kernel, below 0.04 the 5x5 kernel,
otherwise the 3x3 kernel. -/
def selectFuseKernel (s : ℚ) : FuseKernel :=
  if s < 1/50 then FuseKernel.fuse7x7
  else if s < 1/25 then FuseKernel.fuse5x5
  else FuseKernel.fuse3x3

/-- The per-pixel normalisation applied when building denoiseInput
(lines 1870-1886): subtract the channel black level, scale by
range / (whiteLevel - blackLevel), add 0.5, clamp to [0, range] and truncate
to an unsigned integer. -/
def rescalePixel (v black white range : ℚ) : ℤ :=
  ⌊max 0 (min ((v - black) * (range / (white - black)) + 1/2) range)⌋

/-- The denoiseInput pixel of ImageProcessor::denoise (lines 1870-1886):
processFrames are the companion frames (the reference was removed from the
container by ImageProcessor::process before the call).  When
processFrames.size() <= 1 the reference plane value is used directly;
otherwise the fused accumulator is divided by the frame count.  ref is the
reference plane value, fuse the accumulated sum at the same pixel. -/
def denoiseInputPixel (frameCount : ℕ) (ref fuse black white range : ℚ) : ℤ :=
  if frameCount ≤ 1 then rescalePixel ref black white range
  else rescalePixel (fuse / frameCount) black white range

/-- The per-pixel output as claim C2 words it: the accumulated sum divided by
the number of companion frames whenever any exist, the reference value only
when there are zero companion frames. -/
def claimedDenoisePixelC2 (frameCount : ℕ) (ref fuse black white range : ℚ) : ℤ :=
  if frameCount = 0 then rescalePixel ref black white range
  else rescalePixel (fuse / frameCount) black white range

/-! ## Image registration (ImageProcessor::registerImage2, lines 1001-1047)
and the HDR gate (ImageProcessor::prepareHdr, lines 1969-2142) -/

/-- A 3x3 homography.  cv::Mat results are Option Hom: none models the empty
matrix cv::Mat(). -/
abbrev Hom := Fin 3 → Fin 3 → ℚ

/-- The identity homography (cv::Mat::eye(3, 3, CV_32F)). -/
def idHom : Hom := fun i j => if i = j then 1 else 0

/-- The fixed scale-adjusting matrix of registerImage2
(scaleWarpMatrix, rows (1 1 2), (1 1 2), (0.5 0.5 1)). -/
def scaleWarpMatrix : Hom := fun i j =>
  if i = 2 then (if j = 2 then 1 else 1/2) else (if j = 2 then 2 else 1)

/-- warpMatrix.mul(s): cv::Mat::mul is the elementwise product with
scaleWarpMatrix. -/
def scaleWarp (m : Hom) : Hom := fun i j => m i j * scaleWarpMatrix i j

/-- The pyramid loop of registerImage2: cv::buildPyramid with 5 extra levels
gives 6 images, and the loop visits i = 5 down to 1. -/
def alignLevels : List ℕ := [5, 4, 3, 2, 1]

/-- The aligned loop body of registerImage2.  solve abstracts
cv::findTransformECC at one pyramid level: some w means the refined warp,
none that the solver threw cv::Exception.  A throw is caught and the empty
matrix is returned; a success is rescaled by scaleWarpMatrix and passed to
the next finer level. -/
def registerLoop (solve : ℕ → Hom → Option Hom) : List ℕ → Hom → Option Hom
  | [], w => some w
  | i :: rest, w =>
    match solve i w with
    | none => none
    | some w2 => registerLoop solve rest (scaleWarp w2)

/-- ImageProcessor::registerImage2: run the pyramid loop starting from the
identity warp.  The function always returns (exceptions of the solver are
caught inside); none is the empty matrix. -/
def registerImage2 (solve : ℕ → Hom → Option Hom) : Option Hom :=
  registerLoop solve alignLevels idHom

/-- Whether every solver invocation of the run succeeds: the run visits the
levels in order, threading the rescaled warp, exactly as registerLoop does. -/
def allSucceedB (solve : ℕ → Hom → Option Hom) : List ℕ → Hom → Bool
  | [], _ => true
  | i :: rest, w =>
    match solve i w with
    | none => false
    | some w2 => allSucceedB solve rest (scaleWarp w2)

/-- MAX_HDR_ERROR = 0.0001f (ImageProcessor.cpp line 109). -/
def MAX_HDR_ERROR : ℚ := 1/10000

/-- The mean ghost error of prepareHdr (lines 2029-2034): cv::mean over the
interior crop cv::Rect(32, 32, cols - 64, rows - 64) of the ghost map. -/
def hdrMeanError (ghost : ℕ → ℕ → ℚ) (cols rows : ℕ) : ℚ :=
  (((List.range (cols - 64)).map (fun i =>
      ((List.range (rows - 64)).map (fun j => ghost (32 + i) (32 + j))).sum)).sum)
    / ((cols - 64) * (rows - 64))

/-- The HDR layer handed to the renderer on acceptance (HdrMetadata):
exposure scale, and gain fixed at 1 by policy (line 2139). -/
structure HdrLayer where
  exposureScale : ℚ
  gain : ℚ

/-- The decision chain of ImageProcessor::prepareHdr: registration first
(an empty warp matrix returns nullptr, line 1999), then the interior mean
ghost error is compared against MAX_HDR_ERROR (line 2037, rejecting with
nullptr when the error exceeds it).  ghost abstracts the hdr_mask kernel
output for the computed warp; cols and rows are the ghost-map dimensions. -/
def prepareHdr (solve : ℕ → Hom → Option Hom) (ghost : Hom → ℕ → ℕ → ℚ)
    (cols rows : ℕ) (exposureScale : ℚ) : Option HdrLayer :=
  match registerImage2 solve with
  | none => none
  | some w =>
    if hdrMeanError (ghost w) cols rows > MAX_HDR_ERROR then none
    else some ⟨exposureScale, 1⟩

/-! ## Exposure, shadows, EV (ImageProcessor.cpp lines 243-250, 489-508,
555-562).  The libm transcendentals (log, exp, pow, log2, log10) are opaque
numeric collaborators and appear as function parameters. -/

/-- SHADOW_BIAS = 6.0f (line 110). -/
def SHADOW_BIAS : ℚ := 6

/-- ImageProcessor::getShadowKeyValue (lines 555-562): the night-mode branch
is commented out in the source, so minKv is always 1.03. -/
def getShadowKeyValue (log10 pow10 : ℚ → ℚ) (ev : ℚ) : ℚ :=
  103/100 - SHADOW_BIAS / (SHADOW_BIAS + log10 (pow10 ev + 1))

/-- The log-average luminance of ImageProcessor::estimateShadows
(lines 490-503): histogram bins outside the 0.5 percent guard band are
ignored, each kept bin contributes count * log(1e-5 + i / cols), and the
result is exp of the weighted average. -/
def avgLuminance (logf expf : ℚ → ℚ) (histogram : List ℚ) : ℚ :=
  let cols : ℕ := histogram.length
  let lowerBound : ℕ := (⌊(1/2 : ℚ) + (cols : ℚ) * (1/200)⌋).toNat
  let upperBound : ℕ := cols - lowerBound
  let idxs : List ℕ := (List.range (upperBound - lowerBound)).map (fun k => lowerBound + k)
  let s : ℚ := (idxs.map (fun i => histogram.getD i 0 * logf (1/100000 + (i : ℚ) / cols))).sum
  let total : ℚ := (idxs.map (fun i => histogram.getD i 0)).sum
  expf (s / (total + 1/100000))

/-- ImageProcessor::estimateShadows (lines 489-508): two to the power
keyValue / avgLuminance, clamped into [1, 32]. -/
def estimateShadows (pow2 logf expf : ℚ → ℚ) (histogram : List ℚ) (keyValue : ℚ) : ℚ :=
  max 1 (min (pow2 (keyValue / avgLuminance logf expf histogram)) 32)

/-- ImageProcessor::calcEv (lines 243-250): the aperture defaults to 1.8
when the camera reports no apertures, and the exposure time arrives in
nanoseconds. -/
def calcEv (log2 : ℚ → ℚ) (apertures : List ℚ) (exposureTime iso : ℚ) : ℚ :=
  let a := apertures.headD (9/5)
  log2 (a * a / (exposureTime / 1000000000)) - log2 (iso / 100)

/-! ## Control flow of ImageProcessor::process (lines 1183-1395):
callback events, fatal input errors, DNG write failures -/

/-- The progress callback interface events (ImageProcessorProgress). -/
inductive CallbackEvent
  | progress (percent : ℤ)
  | previewSaved
  | error (msg : String)
  | completed
deriving DecidableEq

/-- The inputs that decide the control flow of ImageProcessor::process.
Negative settings values are the unset sentinels; asShotMax is the largest
component of the as-shot white balance vector (createSrgbMatrix throws
InvalidState when it is not positive, lines 623-632). -/
structure ProcessInput where
  frameCount : ℕ
  referenceValid : Bool
  shadows : ℚ
  blacks : ℚ
  whitePoint : ℚ
  temperature : ℚ
  tint : ℚ
  asShotMax : ℚ
  writeDngFile : Bool
  dngWriteFails : Bool
deriving DecidableEq

/-- The observable outcome of one run of ImageProcessor::process: the
callback events in order, whether the rendered JPEG was written, whether the
DNG was written, and an exception leaving process uncaught (if any). -/
structure ProcessResult where
  events : List CallbackEvent
  outputWritten : Bool
  dngWritten : Bool
  raised : Option String
deriving DecidableEq

/-- Control-flow model of ImageProcessor::process (container overload,
lines 1183-1395).  In source order:
onProgressUpdate(0); the no-frames and invalid-reference checks each report
through onError once, call onCompleted and return (lines 1218-1232);
when settings.shadows is unset, calcHistogram runs and always uses the
as-shot createSrgbMatrix overload, which throws on a zero white balance
vector (lines 1241-1249, 1124-1129, 631); the preview render (line 1262)
— like the black/white-point estimation before it — uses the as-shot
overload only when neither temperature nor tint is explicitly set
(lines 803-810), throwing on a zero vector before any file is written;
otherwise the pipeline runs to completion: the preview is saved, denoise and
post-process run, a DNG write is attempted when settings.dng is set with any
util::WriteDng failure caught and swallowed (lines 1354-1358), the JPEG is
written and onCompleted fires (line 1394).  Per-frame fusion progress
updates are elided; progress 75 / 95 / 100 are the denoiseCompleted,
postProcessCompleted and imageSaved notifications. -/
def processModel (inp : ProcessInput) : ProcessResult :=
  if inp.frameCount = 0 then
    { events := [CallbackEvent.progress 0, CallbackEvent.error "No frames found",
                 CallbackEvent.completed]
      outputWritten := false, dngWritten := false, raised := none }
  else if inp.referenceValid = false then
    { events := [CallbackEvent.progress 0, CallbackEvent.error "Invalid reference frames",
                 CallbackEvent.completed]
      outputWritten := false, dngWritten := false, raised := none }
  else if inp.shadows < 0 ∧ inp.asShotMax ≤ 0 then
    { events := [CallbackEvent.progress 0]
      outputWritten := false, dngWritten := false
      raised := some "Camera white balance vector is zero" }
  else if inp.temperature ≤ 0 ∧ inp.tint ≤ 0 ∧ inp.asShotMax ≤ 0 then
    { events := [CallbackEvent.progress 0]
      outputWritten := false, dngWritten := false
      raised := some "Camera white balance vector is zero" }
  else
    { events := [CallbackEvent.progress 0, CallbackEvent.previewSaved,
                 CallbackEvent.progress 75, CallbackEvent.progress 95,
                 CallbackEvent.progress 100, CallbackEvent.completed]
      outputWritten := true
      dngWritten := inp.writeDngFile && !inp.dngWriteFails
      raised := none }

/-- Modelled from the spec: the capture-job harness that invokes
ImageProcessor::process is not under src.  Per spec section 7, it catches a
pipeline exception and reports it once through the progress callback error
channel; nothing further is produced. -/
def runCaptureJob (inp : ProcessInput) : ProcessResult :=
  let r := processModel inp
  match r.raised with
  | none => r
  | some msg =>
    { events := r.events ++ [CallbackEvent.error msg]
      outputWritten := r.outputWritten, dngWritten := r.dngWritten, raised := none }

/-- Whether a callback event is an error report. -/
def isErrorEvent : CallbackEvent → Bool
  | CallbackEvent.error _ => true
  | _ => false

/-- Number of onError invocations in an event trace. -/
def errorCount (evs : List CallbackEvent) : ℕ := (evs.filter isErrorEvent).length

end MotionCam

namespace MotionCam

/-! ## Theorems -/

theorem attenuate_zero (sigma d : ℚ) : attenuate 0 sigma d = d := by
  unfold attenuate
  split_ifs with h
  · rw [zero_mul] at h
    have hd : d = 0 := abs_eq_zero.mp (le_antisymm h (abs_nonneg d))
    rw [hd]
  · rfl

/-- C3: the temporal fusion kernel variant is selected from the normalised
average signal level by exactly three buckets: below 0.02 the 7x7 kernel,
from 0.02 up to 0.04 the 5x5 kernel, and from 0.04 upward the 3x3 kernel. -/
theorem fuse_kernel_selection (signal : List ℚ) (whiteLevel : ℚ) :
    (selectFuseKernel (signalAverage signal whiteLevel) = FuseKernel.fuse7x7 ↔
        signalAverage signal whiteLevel < 1/50) ∧
    (selectFuseKernel (signalAverage signal whiteLevel) = FuseKernel.fuse5x5 ↔
        1/50 ≤ signalAverage signal whiteLevel ∧ signalAverage signal whiteLevel < 1/25) ∧
    (selectFuseKernel (signalAverage signal whiteLevel) = FuseKernel.fuse3x3 ↔
        1/25 ≤ signalAverage signal whiteLevel) := by
  generalize signalAverage signal whiteLevel = s
  unfold selectFuseKernel
  split_ifs with h1 h2
  · exact ⟨⟨fun _ => h1, fun _ => rfl⟩,
      ⟨fun h => absurd h (by decide), fun hh => absurd h1 (not_lt.mpr hh.1)⟩,
      ⟨fun h => absurd h (by decide),
        fun hh => absurd h1 (not_lt.mpr (le_trans (by norm_num) hh))⟩⟩
  · exact ⟨⟨fun h => absurd h (by decide), fun hh => absurd hh h1⟩,
      ⟨fun _ => ⟨not_lt.mp h1, h2⟩, fun _ => rfl⟩,
      ⟨fun h => absurd h (by decide), fun hh => absurd h2 (not_lt.mpr hh)⟩⟩
  · exact ⟨⟨fun h => absurd h (by decide), fun hh => absurd hh h1⟩,
      ⟨fun h => absurd h (by decide), fun hh => absurd hh.2 h2⟩,
      ⟨fun _ => not_lt.mp h2, fun _ => rfl⟩⟩

/-- C3 witness: the empty signal list with white level 1 has normalised
average 0 and selects the 7x7 kernel. -/
theorem fuse_kernel_selection_witness :
    selectFuseKernel (signalAverage [] 1) = FuseKernel.fuse7x7 :=
  (fuse_kernel_selection [] 1).1.mpr (by norm_num [signalAverage])

/-- C10: the computed EV is log2(a^2 / exposure seconds) - log2(iso/100)
where a is the first aperture when the list is non-empty and 1.8 otherwise;
the empty-aperture case is total and uses the 1.8 default. -/
theorem calcEv_formula (log2 : ℚ → ℚ) (apertures : List ℚ) (exposureTime iso : ℚ) :
    calcEv log2 apertures exposureTime iso =
      log2 (apertures.headD (9/5) * apertures.headD (9/5) / (exposureTime / 1000000000))
        - log2 (iso / 100) ∧
    calcEv log2 [] exposureTime iso =
      log2 ((9/5) * (9/5) / (exposureTime / 1000000000)) - log2 (iso / 100) ∧
    ∀ a rest, calcEv log2 (a :: rest) exposureTime iso =
      log2 (a * a / (exposureTime / 1000000000)) - log2 (iso / 100) :=
  ⟨rfl, rfl, fun _ _ => rfl⟩

/-- C10 witness: concrete instance on an empty aperture list. -/
theorem calcEv_formula_witness :
    calcEv id [] 1000000000 100 = id ((9/5) * (9/5) / (1000000000 / 1000000000)) - id (100 / 100) :=
  (calcEv_formula id [] 1000000000 100).2.1

/-- C8: shadow estimation equals pow(2, keyValue / avgLogLuminance) clamped
to [1, 32], with keyValue = 1.03 - 6/(6 + log10(10^EV + 1)); in particular
the result always lies in [1, 32]. -/
theorem estimateShadows_formula_and_bounds (pow2 logf expf log10 pow10 : ℚ → ℚ)
    (histogram : List ℚ) (ev : ℚ) :
    estimateShadows pow2 logf expf histogram (getShadowKeyValue log10 pow10 ev) =
      max 1 (min (pow2 ((103/100 - 6 / (6 + log10 (pow10 ev + 1)))
        / avgLuminance logf expf histogram)) 32) ∧
    1 ≤ estimateShadows pow2 logf expf histogram (getShadowKeyValue log10 pow10 ev) ∧
    estimateShadows pow2 logf expf histogram (getShadowKeyValue log10 pow10 ev) ≤ 32 :=
  ⟨rfl, le_max_left 1 _, max_le (by norm_num) (min_le_right _ 32)⟩

/-- C8 witness: concrete instance of the bounds. -/
theorem estimateShadows_formula_and_bounds_witness :
    1 ≤ estimateShadows id id id [] (getShadowKeyValue id id 0) :=
  (estimateShadows_formula_and_bounds id id id id id [] 0).2.1

/-- C2 (amended): the denoiseInput pixel agrees with the claimed
divide-by-frame-count formula except when there is exactly one companion
frame, where the code falls back to the reference plane (the branch tests
processFrames.size() less-or-equal 1, not equality with 0); with zero
companion frames the output is the normalised reference value, and with at
least two it is the accumulator divided by the frame count, both rounded and
clamped into the output range. -/
theorem denoiseInput_branching (n : ℕ) (ref fuse black white range : ℚ) :
    (n ≠ 1 → denoiseInputPixel n ref fuse black white range =
        claimedDenoisePixelC2 n ref fuse black white range) ∧
    denoiseInputPixel 1 ref fuse black white range =
      denoiseInputPixel 0 ref fuse black white range ∧
    denoiseInputPixel 0 ref fuse black white range = rescalePixel ref black white range ∧
    (2 ≤ n → denoiseInputPixel n ref fuse black white range =
        rescalePixel (fuse / n) black white range) := by
  refine ⟨fun hn => ?_, rfl, rfl, fun hn => ?_⟩
  · unfold denoiseInputPixel claimedDenoisePixelC2
    rcases n with _ | m
    · rfl
    · rw [if_neg (by omega), if_neg (by omega)]
  · unfold denoiseInputPixel
    rw [if_neg (by omega)]

/-- C2 witness: with zero companion frames the code and the claimed formula
coincide on a concrete pixel. -/
theorem denoiseInput_branching_witness :
    denoiseInputPixel 0 5 7 0 1023 1023 = claimedDenoisePixelC2 0 5 7 0 1023 1023 :=
  (denoiseInput_branching 0 5 7 0 1023 1023).1 (by omega)

/-- C2 counterexample: with exactly one companion frame the code outputs the
reference value (100) while the claimed accumulator-divided-by-count formula
gives 200, so the claim as stated fails at frame count 1. -/
theorem denoiseInput_single_companion_counterexample :
    denoiseInputPixel 1 100 200 0 1023 1023 = 100 ∧
    claimedDenoisePixelC2 1 100 200 0 1023 1023 = 200 ∧
    denoiseInputPixel 1 100 200 0 1023 1023 ≠ claimedDenoisePixelC2 1 100 200 0 1023 1023 := by
  have h1 : denoiseInputPixel 1 100 200 0 1023 1023 = 100 := by
    show rescalePixel 100 0 1023 1023 = 100
    unfold rescalePixel
    have e1 : ((100 : ℚ) - 0) * (1023 / (1023 - 0)) + 1/2 = 201/2 := by norm_num
    rw [e1]
    rw [min_eq_left (by norm_num), max_eq_right (by norm_num)]
    rw [Int.floor_eq_iff]
    norm_num
  have h2 : claimedDenoisePixelC2 1 100 200 0 1023 1023 = 200 := by
    show rescalePixel ((200 : ℚ) / (1 : ℕ)) 0 1023 1023 = 200
    unfold rescalePixel
    have e1 : ((200 : ℚ) / (1 : ℕ) - 0) * (1023 / (1023 - 0)) + 1/2 = 401/2 := by norm_num
    rw [e1]
    rw [min_eq_left (by norm_num), max_eq_right (by norm_num)]
    rw [Int.floor_eq_iff]
    norm_num
  exact ⟨h1, h2, by rw [h1, h2]; decide⟩

theorem registerLoop_none_of_failure (solve : ℕ → Hom → Option Hom) :
    ∀ (ls : List ℕ) (w : Hom), allSucceedB solve ls w = false →
      registerLoop solve ls w = none := by
  intro ls
  induction ls with
  | nil => intro w h; simp [allSucceedB] at h
  | cons i rest ih =>
    intro w h
    unfold registerLoop
    unfold allSucceedB at h
    cases hs : solve i w with
    | none => simp [hs]
    | some w2 =>
        rw [hs] at h
        simp only [hs]
        exact ih (scaleWarp w2) h

/-- C4: if the homography solver throws at any pyramid level reached by the
registration run, registerImage2 returns the empty matrix (modelled none) —
never the identity homography — without propagating the exception (the model
returns normally by construction, mirroring the catch block), and prepareHdr
treats the empty registration result as failure, producing no HDR layer. -/
theorem registration_failure_yields_empty (solve : ℕ → Hom → Option Hom)
    (h : allSucceedB solve alignLevels idHom = false) :
    registerImage2 solve = none ∧
    registerImage2 solve ≠ some idHom ∧
    ∀ ghost cols rows es, prepareHdr solve ghost cols rows es = none := by
  have hnone : registerImage2 solve = none :=
    registerLoop_none_of_failure solve alignLevels idHom h
  refine ⟨hnone, by simp [hnone], fun ghost cols rows es => ?_⟩
  unfold prepareHdr
  rw [hnone]

/-- C4 witness: a solver that always throws yields the empty matrix. -/
theorem registration_failure_yields_empty_witness :
    registerImage2 (fun _ _ => none) = none :=
  (registration_failure_yields_empty (fun _ _ => none) rfl).1

/-- C6: prepareHdr compares the mean ghost error over the interior crop
(32-pixel margin removed on each side) against MAX_HDR_ERROR = 0.0001 and
produces no HDR layer when the mean exceeds it; an HDR layer is produced
only when registration succeeded and the mean error is within tolerance. -/
theorem hdr_error_tolerance_gate (solve : ℕ → Hom → Option Hom)
    (ghost : Hom → ℕ → ℕ → ℚ) (cols rows : ℕ) (es : ℚ) :
    ((∀ w, hdrMeanError (ghost w) cols rows > MAX_HDR_ERROR) →
        prepareHdr solve ghost cols rows es = none) ∧
    ∀ layer, prepareHdr solve ghost cols rows es = some layer →
      ∃ w, registerImage2 solve = some w ∧
        hdrMeanError (ghost w) cols rows ≤ MAX_HDR_ERROR := by
  cases hr : registerImage2 solve with
  | none =>
    refine ⟨fun _ => ?_, fun layer h => ?_⟩
    · unfold prepareHdr
      rw [hr]
    · unfold prepareHdr at h
      rw [hr] at h
      exact Option.noConfusion h
  | some w =>
    refine ⟨fun hall => ?_, fun layer h => ?_⟩
    · unfold prepareHdr
      rw [hr]
      exact if_pos (hall w)
    · refine ⟨w, rfl, ?_⟩
      by_contra hc
      unfold prepareHdr at h
      rw [hr] at h
      have h2 : (if hdrMeanError (ghost w) cols rows > MAX_HDR_ERROR then (none : Option HdrLayer)
          else some ⟨es, 1⟩) = some layer := h
      rw [if_pos (not_le.mp hc)] at h2
      exact Option.noConfusion h2

/-- C6 witness: a constant ghost error of 1 over a 66x66 map exceeds the
tolerance and the HDR layer is rejected. -/
theorem hdr_error_tolerance_gate_witness :
    prepareHdr (fun _ w => some w) (fun _ _ _ => 1) 66 66 2 = none :=
  (hdr_error_tolerance_gate (fun _ w => some w) (fun _ _ _ => 1) 66 66 2).1
    (fun _ => by norm_num [hdrMeanError, MAX_HDR_ERROR, List.range_succ])

theorem weight_fold_spec (s : ℚ) :
    ∀ (ls : List ℕ) (d : ℚ) (w0 : ℕ),
    (ls.foldl (weightStep s) (d, w0) = (d, w0) ∧
        ∀ j ∈ ls, d ≤ |s - SIGNAL_MAP.getD j 0|) ∨
    ((ls.foldl (weightStep s) (d, w0)).2 ∈ ls ∧
        (ls.foldl (weightStep s) (d, w0)).1 =
          |s - SIGNAL_MAP.getD (ls.foldl (weightStep s) (d, w0)).2 0| ∧
        (ls.foldl (weightStep s) (d, w0)).1 < d ∧
        ∀ j ∈ ls, (ls.foldl (weightStep s) (d, w0)).1 ≤ |s - SIGNAL_MAP.getD j 0|) := by
  intro ls
  induction ls with
  | nil =>
    intro d w0
    left
    exact ⟨rfl, fun j hj => absurd hj (by simp)⟩
  | cons i rest ih =>
    intro d w0
    rw [List.foldl_cons]
    by_cases hc : |s - SIGNAL_MAP.getD i 0| < d
    · have hstep : weightStep s (d, w0) i = (|s - SIGNAL_MAP.getD i 0|, i) := by
        unfold weightStep
        rw [if_pos hc]
      rw [hstep]
      rcases ih (|s - SIGNAL_MAP.getD i 0|) i with ⟨he, hall⟩ | ⟨hmem, heq, hlt, hall⟩
      · right
        rw [he]
        refine ⟨List.mem_cons_self i rest, rfl, hc, ?_⟩
        intro j hj
        rcases List.mem_cons.mp hj with rfl | hj2
        · exact le_refl _
        · exact hall j hj2
      · right
        refine ⟨List.mem_cons_of_mem i hmem, heq, lt_trans hlt hc, ?_⟩
        intro j hj
        rcases List.mem_cons.mp hj with rfl | hj2
        · exact le_of_lt hlt
        · exact hall j hj2
    · have hstep : weightStep s (d, w0) i = (d, w0) := by
        unfold weightStep
        rw [if_neg hc]
      rw [hstep]
      rcases ih d w0 with ⟨he, hall⟩ | ⟨hmem, heq, hlt, hall⟩
      · left
        refine ⟨he, ?_⟩
        intro j hj
        rcases List.mem_cons.mp hj with rfl | hj2
        · exact not_lt.mp hc
        · exact hall j hj2
      · right
        refine ⟨List.mem_cons_of_mem i hmem, heq, hlt, ?_⟩
        intro j hj
        rcases List.mem_cons.mp hj with rfl | hj2
        · exact le_of_lt (lt_of_lt_of_le hlt (not_lt.mp hc))
        · exact hall j hj2

theorem weight_fold_const (s : ℚ) :
    ∀ (ls : List ℕ) (d : ℚ) (w0 : ℕ),
      (∀ j ∈ ls, ¬(|s - SIGNAL_MAP.getD j 0| < d)) →
      ls.foldl (weightStep s) (d, w0) = (d, w0) := by
  intro ls
  induction ls with
  | nil => intro d w0 _; rfl
  | cons i rest ih =>
    intro d w0 hall
    rw [List.foldl_cons]
    have hstep : weightStep s (d, w0) i = (d, w0) := by
      unfold weightStep
      rw [if_neg (hall i (List.mem_cons_self i rest))]
    rw [hstep]
    exact ih d w0 (fun j hj => hall j (List.mem_cons_of_mem i hj))

/-- C5 (amended): for signal levels strictly below the lowest table entry
the highest-attenuation row (row 0) is selected, provided the distance to
the lowest entry beats the 1e5 initialiser of minDiff; for levels strictly
above the highest entry the lowest-attenuation row (row 5) is always
selected; and whenever some entry beats the initialiser, the selected index
is a nearest table entry. -/
theorem denoise_weight_selection (s : ℚ) :
    (s < 1/10000 → 1/10000 - s < INITIAL_MIN_DIFF →
        estimateDenoiseWeights s = WEIGHTS.getD 0 []) ∧
    (1/20 < s → estimateDenoiseWeights s = WEIGHTS.getD 5 []) ∧
    ((∃ i, i < 6 ∧ |s - SIGNAL_MAP.getD i 0| < INITIAL_MIN_DIFF) →
        ∀ j, j < 6 →
          |s - SIGNAL_MAP.getD (bestWeight s).2 0| ≤ |s - SIGNAL_MAP.getD j 0|) := by
  have hspec := weight_fold_spec s (List.range 6) INITIAL_MIN_DIFF 5
  refine ⟨fun ha1 ha2 => ?_, fun hb => ?_, fun hex j hj => ?_⟩
  · show WEIGHTS.getD ((List.range 6).foldl (weightStep s) (INITIAL_MIN_DIFF, 5)).2 [] =
      WEIGHTS.getD 0 []
    rcases hspec with ⟨he, hall⟩ | ⟨hmem, heq, hlt, hall⟩
    · exfalso
      have h0 := hall 0 (List.mem_range.mpr (by norm_num))
      rw [show SIGNAL_MAP.getD 0 0 = 1/10000 from rfl] at h0
      rw [abs_of_neg (by linarith)] at h0
      linarith
    · have h0 := hall 0 (List.mem_range.mpr (by norm_num))
      rw [show SIGNAL_MAP.getD 0 0 = 1/10000 from rfl] at h0
      set k := ((List.range 6).foldl (weightStep s) (INITIAL_MIN_DIFF, 5)).2 with hk
      have hk6 : k < 6 := List.mem_range.mp hmem
      interval_cases k
      · rfl
      · exfalso
        rw [show SIGNAL_MAP.getD 1 0 = 1/400 from rfl] at heq
        rw [heq] at h0
        rw [abs_of_neg (by linarith : s - 1/400 < 0),
            abs_of_neg (by linarith : s - 1/10000 < 0)] at h0
        linarith
      · exfalso
        rw [show SIGNAL_MAP.getD 2 0 = 1/200 from rfl] at heq
        rw [heq] at h0
        rw [abs_of_neg (by linarith : s - 1/200 < 0),
            abs_of_neg (by linarith : s - 1/10000 < 0)] at h0
        linarith
      · exfalso
        rw [show SIGNAL_MAP.getD 3 0 = 1/100 from rfl] at heq
        rw [heq] at h0
        rw [abs_of_neg (by linarith : s - 1/100 < 0),
            abs_of_neg (by linarith : s - 1/10000 < 0)] at h0
        linarith
      · exfalso
        rw [show SIGNAL_MAP.getD 4 0 = 3/100 from rfl] at heq
        rw [heq] at h0
        rw [abs_of_neg (by linarith : s - 3/100 < 0),
            abs_of_neg (by linarith : s - 1/10000 < 0)] at h0
        linarith
      · exfalso
        rw [show SIGNAL_MAP.getD 5 0 = 1/20 from rfl] at heq
        rw [heq] at h0
        rw [abs_of_neg (by linarith : s - 1/20 < 0),
            abs_of_neg (by linarith : s - 1/10000 < 0)] at h0
        linarith
  · show WEIGHTS.getD ((List.range 6).foldl (weightStep s) (INITIAL_MIN_DIFF, 5)).2 [] =
      WEIGHTS.getD 5 []
    rcases hspec with ⟨he, hall⟩ | ⟨hmem, heq, hlt, hall⟩
    · rw [he]
    · have h5 := hall 5 (List.mem_range.mpr (by norm_num))
      rw [show SIGNAL_MAP.getD 5 0 = 1/20 from rfl] at h5
      set k := ((List.range 6).foldl (weightStep s) (INITIAL_MIN_DIFF, 5)).2 with hk
      have hk6 : k < 6 := List.mem_range.mp hmem
      interval_cases k
      · exfalso
        rw [show SIGNAL_MAP.getD 0 0 = 1/10000 from rfl] at heq
        rw [heq] at h5
        rw [abs_of_pos (by linarith : 0 < s - 1/10000),
            abs_of_pos (by linarith : 0 < s - 1/20)] at h5
        linarith
      · exfalso
        rw [show SIGNAL_MAP.getD 1 0 = 1/400 from rfl] at heq
        rw [heq] at h5
        rw [abs_of_pos (by linarith : 0 < s - 1/400),
            abs_of_pos (by linarith : 0 < s - 1/20)] at h5
        linarith
      · exfalso
        rw [show SIGNAL_MAP.getD 2 0 = 1/200 from rfl] at heq
        rw [heq] at h5
        rw [abs_of_pos (by linarith : 0 < s - 1/200),
            abs_of_pos (by linarith : 0 < s - 1/20)] at h5
        linarith
      · exfalso
        rw [show SIGNAL_MAP.getD 3 0 = 1/100 from rfl] at heq
        rw [heq] at h5
        rw [abs_of_pos (by linarith : 0 < s - 1/100),
            abs_of_pos (by linarith : 0 < s - 1/20)] at h5
        linarith
      · exfalso
        rw [show SIGNAL_MAP.getD 4 0 = 3/100 from rfl] at heq
        rw [heq] at h5
        rw [abs_of_pos (by linarith : 0 < s - 3/100),
            abs_of_pos (by linarith : 0 < s - 1/20)] at h5
        linarith
      · rfl
  · rcases hspec with ⟨he, hall⟩ | ⟨hmem, heq, hlt, hall⟩
    · exfalso
      obtain ⟨i, hi6, hilt⟩ := hex
      exact absurd (hall i (List.mem_range.mpr hi6)) (not_le.mpr hilt)
    · have hmin := hall j (List.mem_range.mpr hj)
      show |s - SIGNAL_MAP.getD ((List.range 6).foldl (weightStep s) (INITIAL_MIN_DIFF, 5)).2 0| ≤
        |s - SIGNAL_MAP.getD j 0|
      rw [← heq]
      exact hmin

/-- C5 witness: at signal level 0 (below the lowest entry, within the
sentinel) the highest-attenuation row is selected. -/
theorem denoise_weight_selection_witness :
    estimateDenoiseWeights 0 = WEIGHTS.getD 0 [] :=
  (denoise_weight_selection 0).1 (by norm_num) (by norm_num [INITIAL_MIN_DIFF])

/-- C5 counterexample: the signal level -100001 lies strictly below the
lowest table entry, yet no entry beats the 1e5 minDiff initialiser, so the
loop keeps its initial index 5 and returns the lowest-attenuation row
instead of the highest-attenuation row the claim requires. -/
theorem denoise_weight_sentinel_counterexample :
    (-100001 : ℚ) < 1/10000 ∧
    estimateDenoiseWeights (-100001) = WEIGHTS.getD 5 [] ∧
    estimateDenoiseWeights (-100001) ≠ WEIGHTS.getD 0 [] := by
  have hfold : (List.range 6).foldl (weightStep (-100001)) (INITIAL_MIN_DIFF, 5) =
      (INITIAL_MIN_DIFF, 5) := by
    apply weight_fold_const
    intro j hj
    have hj6 : j < 6 := List.mem_range.mp hj
    interval_cases j
    · rw [show SIGNAL_MAP.getD 0 0 = 1/10000 from rfl, abs_of_neg (by norm_num)]
      norm_num [INITIAL_MIN_DIFF]
    · rw [show SIGNAL_MAP.getD 1 0 = 1/400 from rfl, abs_of_neg (by norm_num)]
      norm_num [INITIAL_MIN_DIFF]
    · rw [show SIGNAL_MAP.getD 2 0 = 1/200 from rfl, abs_of_neg (by norm_num)]
      norm_num [INITIAL_MIN_DIFF]
    · rw [show SIGNAL_MAP.getD 3 0 = 1/100 from rfl, abs_of_neg (by norm_num)]
      norm_num [INITIAL_MIN_DIFF]
    · rw [show SIGNAL_MAP.getD 4 0 = 3/100 from rfl, abs_of_neg (by norm_num)]
      norm_num [INITIAL_MIN_DIFF]
    · rw [show SIGNAL_MAP.getD 5 0 = 1/20 from rfl, abs_of_neg (by norm_num)]
      norm_num [INITIAL_MIN_DIFF]
  have h5 : estimateDenoiseWeights (-100001) = WEIGHTS.getD 5 [] := by
    show WEIGHTS.getD
      ((List.range 6).foldl (weightStep (-100001)) (INITIAL_MIN_DIFF, 5)).2 [] = WEIGHTS.getD 5 []
    rw [hfold]
  refine ⟨by norm_num, h5, ?_⟩
  rw [h5]
  intro hcontra
  have hlist : ([1, 1, 0, 0] : List ℚ) = [12, 4, 2, 1] := hcontra
  simp only [List.cons.injEq] at hlist
  exact absurd hlist.1 (by norm_num)

theorem inverseLevel_forwardLevel (sigma : ℚ) (p : Plane) (x y : ℤ) :
    inverseLevel 0 sigma (forwardLevel p) x y = p x y := by
  obtain ⟨qx, hx⟩ : ∃ q : ℤ, x = 2*q ∨ x = 2*q + 1 := ⟨x / 2, by omega⟩
  obtain ⟨qy, hy⟩ : ∃ q : ℤ, y = 2*q ∨ y = 2*q + 1 := ⟨y / 2, by omega⟩
  rcases hx with rfl | rfl <;> rcases hy with rfl | rfl
  · have hdx : (2*qx) / 2 = qx := by omega
    have hdy : (2*qy) / 2 = qy := by omega
    have hmx : (2*qx) % 2 = 0 := by omega
    have hmy : (2*qy) % 2 = 0 := by omega
    simp only [inverseLevel, forwardLevel, attenuate_zero, hdx, hdy, hmx, hmy]
    rw [if_true, if_true]
    ring
  · have hdx : (2*qx) / 2 = qx := by omega
    have hdy : (2*qy + 1) / 2 = qy := by omega
    have hmx : (2*qx) % 2 = 0 := by omega
    have hmy : (2*qy + 1) % 2 = 1 := by omega
    simp only [inverseLevel, forwardLevel, attenuate_zero, hdx, hdy, hmx, hmy]
    rw [if_true, if_neg (one_ne_zero : (1:ℤ) ≠ 0)]
    ring
  · have hdx : (2*qx + 1) / 2 = qx := by omega
    have hdy : (2*qy) / 2 = qy := by omega
    have hmx : (2*qx + 1) % 2 = 1 := by omega
    have hmy : (2*qy) % 2 = 0 := by omega
    simp only [inverseLevel, forwardLevel, attenuate_zero, hdx, hdy, hmx, hmy]
    rw [if_neg (one_ne_zero : (1:ℤ) ≠ 0), if_true]
    ring
  · have hdx : (2*qx + 1) / 2 = qx := by omega
    have hdy : (2*qy + 1) / 2 = qy := by omega
    have hmx : (2*qx + 1) % 2 = 1 := by omega
    have hmy : (2*qy + 1) % 2 = 1 := by omega
    simp only [inverseLevel, forwardLevel, attenuate_zero, hdx, hdy, hmx, hmy]
    rw [if_neg (one_ne_zero : (1:ℤ) ≠ 0), if_neg (one_ne_zero : (1:ℤ) ≠ 0)]
    ring

theorem inverseTransform_forwardTransform (sigma : ℚ) :
    ∀ (n : ℕ) (p : Plane) (x y : ℤ),
      inverseTransform sigma (List.replicate n 0) (forwardTransform n p).1
        (forwardTransform n p).2 x y = p x y := by
  intro n
  induction n with
  | zero => intro p x y; rfl
  | succ n ih =>
    intro p x y
    rw [List.replicate_succ]
    simp only [forwardTransform, inverseTransform, List.headD_cons, List.tail_cons]
    have hinner : inverseTransform sigma (List.replicate n (0:ℚ))
        (forwardTransform n (forwardLevel p).low).1
        (forwardTransform n (forwardLevel p).low).2 = (forwardLevel p).low :=
      funext fun a => funext fun b => ih (forwardLevel p).low a b
    rw [hinner]
    exact inverseLevel_forwardLevel sigma p x y

theorem quantize_nat (range k : ℕ) (hk : k ≤ range) : quantize range k = k := by
  unfold quantize
  rcases eq_or_lt_of_le hk with rfl | hlt
  · rw [min_eq_right (by linarith : (k:ℚ) ≤ (k:ℚ) + 1/2),
      max_eq_right (by positivity : (0:ℚ) ≤ (k:ℚ))]
    exact Int.floor_natCast k
  · have hcast : (k:ℚ) + 1 ≤ range := by exact_mod_cast hlt
    rw [min_eq_left (by linarith : (k:ℚ) + 1/2 ≤ (range:ℚ)),
      max_eq_right (by positivity : (0:ℚ) ≤ (k:ℚ) + 1/2)]
    rw [Int.floor_eq_iff]
    constructor
    · push_cast
      linarith
    · push_cast
      linarith

/-- C1: with the all-zero attenuation weight vector (the weights installed
when spatialDenoiseLevel == 0), the inverse wavelet transform of the forward
wavelet transform reproduces every quantized channel plane within 1 LSB of
the output range (in fact exactly, since reconstruction is exact and the
values are already on the quantization grid). -/
theorem wavelet_zero_weight_roundtrip (sigma : ℚ) (range : ℕ) (p : Plane)
    (hq : ∀ x y : ℤ, ∃ k : ℕ, k ≤ range ∧ p x y = k) (x y : ℤ) :
    |(quantize range (inverseTransform sigma zeroDenoiseWeights
        (forwardTransform WAVELET_LEVELS p).1 (forwardTransform WAVELET_LEVELS p).2 x y) : ℚ)
      - p x y| ≤ 1 := by
  obtain ⟨k, hk, hpk⟩ := hq x y
  have hz : zeroDenoiseWeights = List.replicate WAVELET_LEVELS (0:ℚ) := rfl
  rw [hz, inverseTransform_forwardTransform sigma WAVELET_LEVELS p x y, hpk,
    quantize_nat range k hk]
  push_cast
  simp

/-- C1 witness: the constant plane 3 in range 100 round-trips through the
4-level transform pair at the origin. -/
theorem wavelet_zero_weight_roundtrip_witness :
    |(quantize 100 (inverseTransform 1 zeroDenoiseWeights
        (forwardTransform WAVELET_LEVELS (fun _ _ => 3)).1
        (forwardTransform WAVELET_LEVELS (fun _ _ => 3)).2 0 0) : ℚ)
      - (fun (_ : ℤ) (_ : ℤ) => (3:ℚ)) 0 0| ≤ 1 :=
  wavelet_zero_weight_roundtrip 1 100 (fun _ _ => 3)
    (fun _ _ => ⟨3, by norm_num, by norm_num⟩) 0 0

/-- C7 (amended): the no-frames and invalid-reference errors are reported
exactly once through the callback error channel, with the job terminating
without output and without an exception reaching the caller; the
zero-white-balance error behaves the same whenever the as-shot vector is
actually consulted, that is when shadow estimation runs (shadows unset) or
when no explicit temperature/tint override is set.  (With an explicit
temperature/tint override and preset shadows the zero vector is never
detected; see the counterexample.) -/
theorem fatal_error_reporting (inp : ProcessInput) :
    (inp.frameCount = 0 →
        errorCount (runCaptureJob inp).events = 1 ∧
        (runCaptureJob inp).outputWritten = false ∧
        (runCaptureJob inp).raised = none) ∧
    (inp.frameCount ≠ 0 → inp.referenceValid = false →
        errorCount (runCaptureJob inp).events = 1 ∧
        (runCaptureJob inp).outputWritten = false ∧
        (runCaptureJob inp).raised = none) ∧
    (inp.frameCount ≠ 0 → inp.referenceValid = true → inp.asShotMax ≤ 0 →
        (inp.shadows < 0 ∨ (inp.temperature ≤ 0 ∧ inp.tint ≤ 0)) →
        errorCount (runCaptureJob inp).events = 1 ∧
        (runCaptureJob inp).outputWritten = false ∧
        (runCaptureJob inp).raised = none) := by
  refine ⟨fun h0 => ?_, fun h1 h2 => ?_, fun h1 h2 h3 h4 => ?_⟩
  · simp only [runCaptureJob, processModel]
    rw [if_pos h0]
    exact ⟨rfl, rfl, rfl⟩
  · simp only [runCaptureJob, processModel]
    rw [if_neg h1, if_pos h2]
    exact ⟨rfl, rfl, rfl⟩
  · simp only [runCaptureJob, processModel]
    rw [if_neg h1, if_neg (by simp [h2])]
    rcases h4 with hs | htt
    · rw [if_pos ⟨hs, h3⟩]
      exact ⟨rfl, rfl, rfl⟩
    · by_cases hsh : inp.shadows < 0 ∧ inp.asShotMax ≤ 0
      · rw [if_pos hsh]
        exact ⟨rfl, rfl, rfl⟩
      · rw [if_neg hsh, if_pos ⟨htt.1, htt.2, h3⟩]
        exact ⟨rfl, rfl, rfl⟩

/-- C7 witness: an empty burst reports exactly one error and produces no
output. -/
theorem fatal_error_reporting_witness :
    errorCount (runCaptureJob
      { frameCount := 0, referenceValid := true, shadows := 1, blacks := 1,
        whitePoint := 1, temperature := 1, tint := 1, asShotMax := 1,
        writeDngFile := false, dngWriteFails := false }).events = 1 :=
  ((fatal_error_reporting _).1 rfl).1

/-- C7 counterexample: with a zero as-shot white balance vector but an
explicit temperature/tint override and preset shadows, blacks and white
point, the pipeline never consults the as-shot vector: the run completes,
writes its output and reports no error at all, contradicting the claim that
every zero-white-balance input is reported once and terminates the job
without output. -/
theorem zero_white_balance_counterexample :
    (({ frameCount := 2, referenceValid := true, shadows := 1, blacks := 1/10,
        whitePoint := 1, temperature := 5500, tint := 10, asShotMax := 0,
        writeDngFile := false, dngWriteFails := false } : ProcessInput).asShotMax ≤ 0) ∧
    errorCount (runCaptureJob
      { frameCount := 2, referenceValid := true, shadows := 1, blacks := 1/10,
        whitePoint := 1, temperature := 5500, tint := 10, asShotMax := 0,
        writeDngFile := false, dngWriteFails := false }).events = 0 ∧
    (runCaptureJob
      { frameCount := 2, referenceValid := true, shadows := 1, blacks := 1/10,
        whitePoint := 1, temperature := 5500, tint := 10, asShotMax := 0,
        writeDngFile := false, dngWriteFails := false }).outputWritten = true := by
  refine ⟨le_refl 0, ?_, ?_⟩
  · simp only [runCaptureJob, processModel]
    rw [if_neg (by norm_num), if_neg (by norm_num),
      if_neg (by norm_num), if_neg (by norm_num)]
    rfl
  · simp only [runCaptureJob, processModel]
    rw [if_neg (by norm_num), if_neg (by norm_num),
      if_neg (by norm_num), if_neg (by norm_num)]

/-- C9: a util::WriteDng failure during the archival write is caught inside
the pipeline (no exception reaches the caller) and does not abort image
production: the run still emits the post-process progress notification,
writes the rendered JPEG and fires the completion callback, producing the
same event trace as a run whose DNG write succeeds. -/
theorem dng_write_failure_is_caught (inp : ProcessInput)
    (h1 : inp.frameCount ≠ 0) (h2 : inp.referenceValid = true)
    (h3 : ¬(inp.shadows < 0 ∧ inp.asShotMax ≤ 0))
    (h4 : ¬(inp.temperature ≤ 0 ∧ inp.tint ≤ 0 ∧ inp.asShotMax ≤ 0))
    (_h5 : inp.writeDngFile = true) (_h6 : inp.dngWriteFails = true) :
    (runCaptureJob inp).raised = none ∧
    (runCaptureJob inp).outputWritten = true ∧
    (runCaptureJob inp).events =
      [CallbackEvent.progress 0, CallbackEvent.previewSaved,
       CallbackEvent.progress 75, CallbackEvent.progress 95,
       CallbackEvent.progress 100, CallbackEvent.completed] ∧
    CallbackEvent.progress 95 ∈ (runCaptureJob inp).events ∧
    CallbackEvent.completed ∈ (runCaptureJob inp).events ∧
    errorCount (runCaptureJob inp).events = 0 := by
  have hrun : runCaptureJob inp =
      { events := [CallbackEvent.progress 0, CallbackEvent.previewSaved,
          CallbackEvent.progress 75, CallbackEvent.progress 95,
          CallbackEvent.progress 100, CallbackEvent.completed]
        outputWritten := true
        dngWritten := inp.writeDngFile && !inp.dngWriteFails
        raised := none } := by
    simp only [runCaptureJob, processModel]
    rw [if_neg h1, if_neg (by simp [h2]), if_neg h3, if_neg h4]
  rw [hrun]
  exact ⟨rfl, rfl, rfl, by simp, by simp, rfl⟩

/-- C9 witness: a concrete run whose DNG write fails still writes its
output. -/
theorem dng_write_failure_is_caught_witness :
    (runCaptureJob
      { frameCount := 2, referenceValid := true, shadows := 1, blacks := 1/10,
        whitePoint := 1, temperature := 5500, tint := 10, asShotMax := 1,
        writeDngFile := true, dngWriteFails := true }).outputWritten = true :=
  (dng_write_failure_is_caught _ (by norm_num) rfl (by norm_num) (by norm_num)
    rfl rfl).2.1

end MotionCam
